import Mathlib

/-!
Verification of the Dunamis IRC bot's task scheduler (`core/task_scheduler.py`),
plugin manager (`core/plugin_manager.py`) and command dispatcher
(`ServiceXProtocol._handle_command` in `servicex.py`).

The Python code is shallowly embedded: every operation is a pure Lean function
on an explicit state.  Python's `dict` structures are modelled as
insertion-ordered association lists with unique keys (matching `dict`
semantics: assignment overwrites in place, `pop` removes the key).  Python
`float` intervals and delays are modelled as `ℚ` — the scheduler only ever
compares them and passes them through, so the embedding is exact.  Timer
registrations issued to the external Twisted reactor are modelled by the
bookkeeping the scheduler itself keeps (`_looping_call`, `_delayed_call`)
plus explicit firing events; the Twisted semantics used are:
`LoopingCall.start(interval, now=True)` fires immediately,
`LoopingCall.start(interval, now=False)` first fires after one full
`interval`, and `reactor.callLater(d, f)` fires `f` once after
`max d 0` seconds.
-/

namespace Dunamis

/-! ## Association lists with string keys (model of Python `dict`) -/

section Assoc

variable {β : Type}

/-- First value stored under key `k`, if any (Python `d.get(k)` / `k in d`). -/
def alookup : List (String × β) → String → Option β
  | [], _ => none
  | p :: l, k => if p.1 = k then some p.2 else alookup l k

/-- Apply `f` to the value stored under key `k`, leaving other entries alone
(Python mutation of the object stored at `d[k]`). -/
def aset (l : List (String × β)) (k : String) (f : β → β) : List (String × β) :=
  l.map (fun p => if p.1 = k then (p.1, f p.2) else p)

/-- Remove every entry with key `k` (Python `d.pop(k, None)` / `del d[k]`). -/
def aremove (l : List (String × β)) (k : String) : List (String × β) :=
  l.filter (fun p => p.1 != k)

/-- Python `d[k] = v`: overwrite in place if the key is present, else append. -/
def ainsert (l : List (String × β)) (k : String) (v : β) : List (String × β) :=
  if (alookup l k).isSome then aset l k (fun _ => v) else l ++ [(k, v)]


end Assoc

/-! ## Data model: `TaskState` and `ScheduledTask` (from `core/task_scheduler.py`) -/

/-- The `TaskState` enum. -/
inductive TaskState
  | PENDING
  | RUNNING
  | PAUSED
  | STOPPED
  | COMPLETED
  | FAILED
deriving DecidableEq, Repr

/-- The `ScheduledTask` dataclass.  The callback and its argument tuple are
not stored: callback invocation is modelled by the boolean outcome supplied
at each firing event.  `created_at`/`started_at` timestamps are dropped (no
claim mentions them); `last_run` is kept as an abstract tick (`Option ℕ`).
The Twisted handles `_looping_call` and `_delayed_call` are modelled by
three booleans: `hasLoop` (`_looping_call is not None`), `loopRunning`
(`_looping_call.running`) and `delayedActive` (`_delayed_call.active()`).
When `start_task` overwrites `_looping_call` while the old `LoopingCall` is
still running, or overwrites `_delayed_call` while the old `DelayedCall` is
still pending, the old registration stays alive in the reactor but is no
longer reachable from the record; `orphanLoops`/`orphanDelayed` count those
still-live orphaned registrations.  (An orphaned `LoopingCall` keeps firing
`_execute_task` in the real program; no theorem in this file depends on the
behaviour of an orphaned registration, only on its existence.) -/
structure ScheduledTask where
  id : String
  name : String
  interval : Option ℚ
  state : TaskState
  periodic : Bool
  lastRun : Option ℕ
  runCount : ℕ
  maxRuns : Option ℕ
  delay : ℚ
  pluginName : Option String
  description : String
  hasLoop : Bool
  loopRunning : Bool
  delayedActive : Bool
  orphanLoops : ℕ
  orphanDelayed : ℕ
deriving DecidableEq, Repr

/-- The `TaskScheduler` class: its `tasks` dict. -/
structure TaskScheduler where
  tasks : List (String × ScheduledTask)
deriving DecidableEq, Repr

/-- A fresh scheduler (`TaskScheduler.__init__`). -/
def initScheduler : TaskScheduler := ⟨[]⟩

/-- `self.tasks.get(task_id)`. -/
def lookupTask (s : TaskScheduler) (tid : String) : Option ScheduledTask :=
  alookup s.tasks tid

/-- Mutate the task object stored under `tid` (Python mutates fields of
`self.tasks[task_id]` in place). -/
def mapTask (s : TaskScheduler) (tid : String) (f : ScheduledTask → ScheduledTask) :
    TaskScheduler :=
  ⟨aset s.tasks tid f⟩

/-- `scheduled_task.state = st` on the task stored under `tid`. -/
def setState (s : TaskScheduler) (tid : String) (st : TaskState) : TaskScheduler :=
  mapTask s tid (fun u => { u with state := st })

/-! ## Scheduler operations (from `core/task_scheduler.py`) -/

/-- `_start_periodic_task`'s first two statements: create a fresh (not yet
running) `LoopingCall` and store it in `_looping_call`, orphaning a
still-running old one. -/
def assignFreshLoop (u : ScheduledTask) : ScheduledTask :=
  { u with hasLoop := true, loopRunning := false,
           orphanLoops := u.orphanLoops + (if u.loopRunning then 1 else 0) }

/-- Store a freshly created `DelayedCall` in `_delayed_call`, orphaning a
still-pending old one. -/
def assignFreshDelayed (u : ScheduledTask) : ScheduledTask :=
  { u with delayedActive := true,
           orphanDelayed := u.orphanDelayed + (if u.delayedActive then 1 else 0) }

/-- The value `_start_onetime_task` passes to `reactor.callLater`:
`task.delay if task.delay > 0 else task.interval`, with `None` mapped
to `0`. -/
def onetimeRegisteredDelay (t : ScheduledTask) : ℚ :=
  if 0 < t.delay then t.delay else t.interval.getD 0

/-- `TaskScheduler.stop_task`. -/
def stopTask (s : TaskScheduler) (tid : String) : Bool × TaskScheduler :=
  match lookupTask s tid with
  | none => (false, s)
  | some t =>
    if t.state = .RUNNING ∨ t.state = .PAUSED then
      (true, mapTask s tid (fun u =>
        { u with loopRunning := false, delayedActive := false, state := .STOPPED }))
    else (false, s)

/-- `TaskScheduler.pause_task`. -/
def pauseTask (s : TaskScheduler) (tid : String) : Bool × TaskScheduler :=
  match lookupTask s tid with
  | none => (false, s)
  | some t =>
    if t.periodic = false then (false, s)
    else if t.state ≠ .RUNNING then (false, s)
    else
      (true, mapTask s tid (fun u => { u with loopRunning := false, state := .PAUSED }))

/-- `TaskScheduler.resume_task`: restarts the `LoopingCall` when one exists
(`if scheduled_task._looping_call:`), then sets RUNNING.
`LoopingCall.start` asserts the call is not already running and raises when
the interval is `None` or negative; either failure lands in the `except`
branch, which returns `False` with the task left as it was (still PAUSED). -/
def resumeTask (s : TaskScheduler) (tid : String) : Bool × TaskScheduler :=
  match lookupTask s tid with
  | none => (false, s)
  | some t =>
    if t.state ≠ .PAUSED then (false, s)
    else if t.hasLoop then
      if t.loopRunning then (false, s)
      else
        match t.interval with
        | none => (false, s)
        | some i =>
          if i < 0 then (false, s)
          else
            (true, mapTask s tid (fun u =>
              { u with loopRunning := true, state := .RUNNING }))
    else (true, setState s tid .RUNNING)

/-- `TaskScheduler._execute_task`.  `ok` is the outcome of invoking the
stored callback (`true`: normal return, `false`: the callback raised — the
`except` branch runs).  `now` is the abstract `datetime.now()` tick.  The
exception is contained here exactly as in the source: the function is total
and never propagates a failure to its caller. -/
def executeTask (s : TaskScheduler) (tid : String) (ok : Bool) (now : ℕ) : TaskScheduler :=
  match lookupTask s tid with
  | none => s
  | some t =>
    if ok then
      let s1 := mapTask s tid (fun u =>
        { u with lastRun := some now, runCount := u.runCount + 1 })
      let reached := t.periodic && (match t.maxRuns with
        | some m => decide (m ≤ t.runCount + 1)
        | none => false)
      if reached then setState (stopTask s1 t.id).2 t.id .COMPLETED
      else s1
    else mapTask s tid (fun u => { u with state := .FAILED })

/-- A firing of the task's `LoopingCall` (the `wrapped_callback` of
`_start_periodic_task`): only happens while the loop is running. -/
def loopingCallFires (s : TaskScheduler) (tid : String) (ok : Bool) (now : ℕ) :
    TaskScheduler :=
  match lookupTask s tid with
  | none => s
  | some t => if t.loopRunning then executeTask s tid ok now else s

/-- A firing of the task's `_delayed_call`: only happens while it is active.
The `DelayedCall` becomes inactive as it fires.  For a periodic task the
payload is the inert `lambda: None`; for a one-time task it is the
`wrapped_callback` of `_start_onetime_task`, which runs `_execute_task` and
then unconditionally sets COMPLETED. -/
def delayedCallFires (s : TaskScheduler) (tid : String) (ok : Bool) (now : ℕ) :
    TaskScheduler :=
  match lookupTask s tid with
  | none => s
  | some t =>
    if t.delayedActive then
      let s1 := mapTask s tid (fun u => { u with delayedActive := false })
      if t.periodic then s1
      else setState (executeTask s1 tid ok now) tid .COMPLETED
    else s

/-- `TaskScheduler.start_task` (with `_start_periodic_task` /
`_start_onetime_task` inlined, including their failure modes, which the
`except` branch of `start_task` turns into state FAILED and `False`):

* periodic: a fresh `LoopingCall` is created and stored (orphaning a
  still-running old one).  `LoopingCall.start` raises when the interval is
  `None` or negative — the partial mutation survives, the task is marked
  FAILED.  With `delay > 0` the loop is started `now=False` and the inert
  `reactor.callLater(delay, lambda: None)` is registered; with `delay <= 0`
  the loop is started `now=True`, which invokes `wrapped_callback` —
  i.e. `_execute_task` — *synchronously*, while the task still has its
  pre-start state; only afterwards does `start_task` set state RUNNING.
  `ok`/`now` are the outcome and tick of that synchronous invocation (unused
  on the other paths).
* one-time: `reactor.callLater` asserts its delay is `>= 0`; a negative
  registered delay therefore raises before `_delayed_call` is assigned and
  the task is marked FAILED with no timer registered.  Otherwise the single
  `DelayedCall` is stored (orphaning a still-pending old one). -/
def startTask (s : TaskScheduler) (tid : String) (ok : Bool) (now : ℕ) :
    Bool × TaskScheduler :=
  match lookupTask s tid with
  | none => (false, s)
  | some t =>
    if t.state = .RUNNING ∨ t.state = .COMPLETED then (false, s)
    else if t.periodic then
      let s1 := mapTask s tid assignFreshLoop
      match t.interval with
      | none => (false, setState s1 tid .FAILED)
      | some i =>
        if i < 0 then (false, setState s1 tid .FAILED)
        else if 0 < t.delay then
          let s2 := mapTask s1 tid (fun u =>
            assignFreshDelayed { u with loopRunning := true })
          (true, setState s2 tid .RUNNING)
        else
          let s2 := mapTask s1 tid (fun u => { u with loopRunning := true })
          let s3 := executeTask s2 tid ok now
          (true, setState s3 tid .RUNNING)
    else
      if onetimeRegisteredDelay t < 0 then (false, setState s tid .FAILED)
      else
        let s1 := mapTask s tid assignFreshDelayed
        (true, setState s1 tid .RUNNING)

/-- `TaskScheduler.add_task`.  The fresh uuid is passed in as `freshId`
(the Python code draws it from `uuid.uuid4()`); `ok`/`now` are the outcome
and tick of the synchronous first firing that an auto-start of a periodic
task with `delay <= 0` performs. -/
def addTask (s : TaskScheduler) (freshId name : String) (interval : Option ℚ)
    (periodic : Bool) (delay : ℚ) (maxRuns : Option ℕ) (pluginName : Option String)
    (description : String) (autoStart : Bool) (ok : Bool) (now : ℕ) :
    Option String × TaskScheduler :=
  if periodic = true ∧ interval = none then (none, s)
  else
    let interval := if periodic = false ∧ interval = none then some delay else interval
    let t : ScheduledTask :=
      { id := freshId, name := name, interval := interval, state := .PENDING,
        periodic := periodic, lastRun := none, runCount := 0, maxRuns := maxRuns,
        delay := delay, pluginName := pluginName, description := description,
        hasLoop := false, loopRunning := false, delayedActive := false,
        orphanLoops := 0, orphanDelayed := 0 }
    let s' : TaskScheduler := ⟨ainsert s.tasks freshId t⟩
    if autoStart then (some freshId, (startTask s' freshId ok now).2)
    else (some freshId, s')

/-- `TaskScheduler.remove_task`: stop first (result ignored), then pop. -/
def removeTask (s : TaskScheduler) (tid : String) : Bool × TaskScheduler :=
  match lookupTask s tid with
  | none => (false, s)
  | some _ =>
    let s1 := (stopTask s tid).2
    (true, ⟨aremove s1.tasks tid⟩)

/-- `TaskScheduler.modify_task`. -/
def modifyTask (s : TaskScheduler) (tid : String) (interval : Option ℚ)
    (maxRuns : Option ℕ) (description : Option String) : Bool × TaskScheduler :=
  match lookupTask s tid with
  | none => (false, s)
  | some t =>
    let wasRunning := t.state = .RUNNING
    let s1 := if wasRunning ∧ interval.isSome then (pauseTask s tid).2 else s
    let s2 := match interval with
      | some i => mapTask s1 tid (fun u => { u with interval := some i })
      | none => s1
    let s3 := match maxRuns with
      | some m => mapTask s2 tid (fun u => { u with maxRuns := some m })
      | none => s2
    let s4 := match description with
      | some d => mapTask s3 tid (fun u => { u with description := d })
      | none => s3
    if wasRunning ∧ interval.isSome then
      (true, (resumeTask (setState s4 tid .PAUSED) tid).2)
    else (true, s4)

/-- `TaskScheduler.remove_plugin_tasks`. -/
def removePluginTasks (s : TaskScheduler) (pluginName : String) : ℕ × TaskScheduler :=
  let toRemove := (s.tasks.filter (fun p => p.2.pluginName == some pluginName)).map Prod.fst
  let s' := toRemove.foldl (fun acc tid => (removeTask acc tid).2) s
  (toRemove.length, s')

/-- `TaskScheduler.stop_all_tasks`. -/
def stopAllTasks (s : TaskScheduler) : TaskScheduler :=
  (s.tasks.map Prod.fst).foldl (fun acc tid =>
    match lookupTask acc tid with
    | some t => if t.state = .RUNNING ∨ t.state = .PAUSED then (stopTask acc tid).2 else acc
    | none => acc) s

/-! ## Timer-offset models (Twisted `LoopingCall` / `reactor.callLater`) -/

/-- Offset after `start_task` at which the repeating timer of a periodic
task first fires.  `_start_periodic_task` passes `now=False` when
`delay > 0` (first firing after one full `interval`) and `now=True`
otherwise (immediate first firing). -/
def periodicFirstFireOffset (t : ScheduledTask) : ℚ :=
  if 0 < t.delay then t.interval.getD 0 else 0

/-- Number of timer registrations currently live in the reactor for this
task: the tracked repeating and single-shot registrations plus the orphaned
ones that `start_task` overwrote while they were still pending or
running. -/
def underlyingRegistrations (t : ScheduledTask) : ℕ :=
  (if t.loopRunning then 1 else 0) + (if t.delayedActive then 1 else 0)
    + t.orphanLoops + t.orphanDelayed

/-! ## Plugin manager (from `core/plugin_manager.py`) -/

/-- A loaded plugin module, reduced to its export surface: the attributes
named `command_*` (keyed by the derived command name, i.e. the attribute
name with the `command_` marker removed) and the attributes named
`value_*` (likewise).  Handlers are abstract tags (`ℕ`).  `dir(plugin)`
enumerates them in a fixed order, modelled by the list order. -/
structure Plugin where
  commandAttrs : List (String × ℕ)
  valueAttrs : List (String × ℕ)
deriving DecidableEq, Repr

/-- The `PluginManager` class state: `loaded_plugins`, `commands`, `values`. -/
structure PluginManager where
  loadedPlugins : List (String × Plugin)
  commands : List (String × ℕ)
  values : List (String × ℕ)
deriving DecidableEq, Repr

def initPluginManager : PluginManager := ⟨[], [], []⟩

/-- `PluginManager._register_plugin_features`: insert every export into the
shared maps, overwriting any same-named entry. -/
def registerPluginFeatures (pm : PluginManager) (p : Plugin) : PluginManager :=
  { pm with
    commands := p.commandAttrs.foldl (fun m kv => ainsert m kv.1 kv.2) pm.commands,
    values := p.valueAttrs.foldl (fun m kv => ainsert m kv.1 kv.2) pm.values }

/-- `PluginManager._unregister_plugin_features`: pop every export NAME from
the shared maps — keyed by name alone, regardless of which plugin's handler
is currently stored there. -/
def unregisterPluginFeatures (pm : PluginManager) (p : Plugin) : PluginManager :=
  { pm with
    commands := p.commandAttrs.foldl (fun m kv => aremove m kv.1) pm.commands,
    values := p.valueAttrs.foldl (fun m kv => aremove m kv.1) pm.values }

/-- `PluginManager.load_plugin`.  The loaded module is passed in as `p`
(the Python code imports it from disk); a load that raises during import is
modelled by not calling this function. -/
def loadPlugin (pm : PluginManager) (pluginName : String) (p : Plugin) :
    Bool × PluginManager :=
  if (alookup pm.loadedPlugins pluginName).isSome then (false, pm)
  else
    let pm := { pm with loadedPlugins := ainsert pm.loadedPlugins pluginName p }
    (true, registerPluginFeatures pm p)

/-- `PluginManager.unload_plugin`. -/
def unloadPlugin (pm : PluginManager) (pluginName : String)
    (scheduler : Option TaskScheduler) :
    Bool × PluginManager × Option TaskScheduler :=
  match alookup pm.loadedPlugins pluginName with
  | none => (false, pm, scheduler)
  | some p =>
    let pm := unregisterPluginFeatures pm p
    let scheduler := scheduler.map (fun s => (removePluginTasks s pluginName).2)
    let pm := { pm with loadedPlugins := aremove pm.loadedPlugins pluginName }
    (true, pm, scheduler)

/-- `PluginManager.execute_command`: whether a handler for `command` exists
and is invoked. -/
def executeCommand (pm : PluginManager) (command : String) : Bool :=
  (alookup pm.commands command).isSome

/-! ## Shell-style tokenizer (model of `shlex.split`) and the command
dispatcher (`ServiceXProtocol._handle_command` in `servicex.py`) -/

/-- The two `ValueError`s `shlex.split` can raise in POSIX mode. -/
inductive ShlexError
  | noClosingQuotation
  | noEscapedCharacter
deriving DecidableEq, Repr

/-- `str(e)` for the two tokenization errors. -/
def shlexErrorMessage : ShlexError → String
  | .noClosingQuotation => "No closing quotation"
  | .noEscapedCharacter => "No escaped character"

/-- Whether the first character list starts the second (`needle` begins
`haystack`). -/
def startsWithChars : List Char → List Char → Bool
  | [], _ => true
  | _ :: _, [] => false
  | c :: cs, d :: ds => c = d && startsWithChars cs ds

/-- Python's `needle in haystack` on strings, over their character lists. -/
def containsChars (needle : List Char) : List Char → Bool
  | [] => startsWithChars needle []
  | d :: ds => startsWithChars needle (d :: ds) || containsChars needle ds

/-- The dispatcher's test `"closing quotation" in str(e).lower()` (the
error messages are pure ASCII, so per-character lowering is exact). -/
def mentionsClosingQuotation (e : ShlexError) : Bool :=
  containsChars "closing quotation".data
    ((shlexErrorMessage e).data.map Char.toLower)

/-- Tokenizer modes: outside quotes, inside single quotes, inside double
quotes, and the states right after a backslash outside quotes
(`escapeNormal`) or inside double quotes (`escapeDouble`). -/
inductive SMode
  | normal
  | single
  | double
  | escapeNormal
  | escapeDouble
deriving DecidableEq, Repr

/-- `shlex.whitespace`. -/
def isShlexWhitespace (c : Char) : Bool :=
  c = ' ' ∨ c = '\t' ∨ c = '\r' ∨ c = '\n'

/-- Core loop of `shlex.split(s)` (POSIX mode, `whitespace_split=True`,
comments disabled): whitespace separates tokens, single quotes are literal
until the closing quote, double quotes allow `\"` and `\\` escapes,
backslash outside quotes escapes any character.  End of input inside a
quote raises "No closing quotation"; end of input right after a backslash
raises "No escaped character".  `inTok` records whether a token is open
(so that `''` yields an empty token) and `cur`/`acc` accumulate in
reverse. -/
def shlexRun : List Char → SMode → Bool → List Char → List String →
    Except ShlexError (List String)
  | [], .normal, inTok, cur, acc =>
    .ok (List.reverse (if inTok then String.mk cur.reverse :: acc else acc))
  | [], .single, _, _, _ => .error .noClosingQuotation
  | [], .double, _, _, _ => .error .noClosingQuotation
  | [], .escapeNormal, _, _, _ => .error .noEscapedCharacter
  | [], .escapeDouble, _, _, _ => .error .noEscapedCharacter
  | c :: rest, .normal, inTok, cur, acc =>
    if isShlexWhitespace c then
      if inTok then shlexRun rest .normal false [] (String.mk cur.reverse :: acc)
      else shlexRun rest .normal false [] acc
    else if c = '\'' then shlexRun rest .single true cur acc
    else if c = '"' then shlexRun rest .double true cur acc
    else if c = '\\' then shlexRun rest .escapeNormal inTok cur acc
    else shlexRun rest .normal true (c :: cur) acc
  | c :: rest, .single, _, cur, acc =>
    if c = '\'' then shlexRun rest .normal true cur acc
    else shlexRun rest .single true (c :: cur) acc
  | c :: rest, .double, _, cur, acc =>
    if c = '"' then shlexRun rest .normal true cur acc
    else if c = '\\' then shlexRun rest .escapeDouble true cur acc
    else shlexRun rest .double true (c :: cur) acc
  | c :: rest, .escapeNormal, _, cur, acc =>
    shlexRun rest .normal true (c :: cur) acc
  | c :: rest, .escapeDouble, _, cur, acc =>
    if c = '"' ∨ c = '\\' then shlexRun rest .double true (c :: cur) acc
    else shlexRun rest .double true (c :: '\\' :: cur) acc

/-- `shlex.split(message)`. -/
def shlexSplit (message : String) : Except ShlexError (List String) :=
  shlexRun message.data .normal false [] []

/-- Observable outcomes of `_handle_command`: a reply sent back via
`send_message`, or the invocation of a registered command handler. -/
inductive DispatchAction
  | reply (text : String)
  | dispatch (command : String) (args : List String)
deriving DecidableEq, Repr

/-- `ServiceXProtocol._handle_command`: strip the trigger unless the
message arrived in a private exchange, tokenize, and either report the
quoting error, drop the message, or dispatch the first token as the
command with the rest as arguments ("Command not found" when no handler
is registered). -/
def handleCommand (trigger : String) (isPm : Bool) (message : String)
    (commands : List (String × ℕ)) : List DispatchAction :=
  let message := if isPm then message else message.drop trigger.length
  match shlexSplit message with
  | .error e =>
    if mentionsClosingQuotation e then [.reply "Missing closing quotation mark"]
    else []
  | .ok [] => []
  | .ok (command :: args) =>
    if (alookup commands command).isSome then [.dispatch command args]
    else [.reply "Command not found"]

/-! ## Firing sequences -/

section Assoc

variable {β : Type}

@[simp] theorem alookup_nil (k : String) : alookup ([] : List (String × β)) k = none := rfl

theorem alookup_aset_self (l : List (String × β)) (k : String) (f : β → β) :
    alookup (aset l k f) k = (alookup l k).map f := by
  induction l with
  | nil => rfl
  | cons p l ih =>
    simp only [aset, List.map_cons]
    by_cases h : p.1 = k
    · simp [alookup, h]
    · simp only [if_neg h, alookup, if_neg h]
      simpa [aset] using ih

theorem alookup_aset_ne (l : List (String × β)) (k k' : String) (f : β → β)
    (h : k' ≠ k) : alookup (aset l k f) k' = alookup l k' := by
  induction l with
  | nil => rfl
  | cons p l ih =>
    simp only [aset, List.map_cons]
    by_cases hp : p.1 = k
    · have hne : p.1 ≠ k' := fun he => h (he ▸ hp)
      simp only [if_pos hp, alookup, if_neg hne]
      simpa [aset] using ih
    · by_cases hp' : p.1 = k'
      · simp [if_neg hp, alookup, hp', h]
      · simp only [if_neg hp, alookup, if_neg hp']
        simpa [aset] using ih

theorem aset_aset (l : List (String × β)) (k : String) (f g : β → β) :
    aset (aset l k f) k g = aset l k (fun b => g (f b)) := by
  induction l with
  | nil => rfl
  | cons p l ih =>
    simp only [aset, List.map_cons]
    by_cases h : p.1 = k
    · simp only [if_pos h, if_pos h]
      simpa [aset] using ih
    · simp only [if_neg h, if_neg h]
      simpa [aset] using ih

theorem keys_aset (l : List (String × β)) (k : String) (f : β → β) :
    (aset l k f).map Prod.fst = l.map Prod.fst := by
  induction l with
  | nil => rfl
  | cons p l ih =>
    simp only [aset, List.map_cons]
    by_cases h : p.1 = k
    · simp only [if_pos h]
      simpa [aset] using congrArg (List.cons p.1) ih
    · simp only [if_neg h]
      simpa [aset] using congrArg (List.cons p.1) ih

theorem mem_aset (l : List (String × β)) (k : String) (f : β → β) (p : String × β)
    (hp : p ∈ aset l k f) :
    (p ∈ l ∧ p.1 ≠ k) ∨ ∃ q ∈ l, q.1 = k ∧ p = (q.1, f q.2) := by
  rcases List.mem_map.1 hp with ⟨q, hq, hqe⟩
  by_cases h : q.1 = k
  · exact Or.inr ⟨q, hq, h, by simpa [h] using hqe.symm⟩
  · simp only [if_neg h] at hqe
    exact Or.inl ⟨hqe ▸ hq, hqe ▸ h⟩

theorem alookup_none_iff (l : List (String × β)) (k : String) :
    alookup l k = none ↔ ∀ p ∈ l, p.1 ≠ k := by
  induction l with
  | nil => simp
  | cons p l ih =>
    by_cases h : p.1 = k <;> simp [alookup, h, ih]

theorem alookup_isSome_of_mem (l : List (String × β)) (p : String × β) (hp : p ∈ l) :
    (alookup l p.1).isSome := by
  induction l with
  | nil => cases hp
  | cons q l ih =>
    rcases List.mem_cons.1 hp with hp | hp
    · simp [alookup, hp]
    · by_cases h : q.1 = p.1 <;> simp [alookup, h, ih hp]

theorem alookup_eq_of_mem_nodup (l : List (String × β)) (p : String × β)
    (hp : p ∈ l) (hnd : (l.map Prod.fst).Nodup) : alookup l p.1 = some p.2 := by
  induction l with
  | nil => cases hp
  | cons q l ih =>
    simp only [List.map_cons, List.nodup_cons] at hnd
    rcases List.mem_cons.1 hp with hp | hp
    · simp [hp, alookup]
    · have hq : q.1 ≠ p.1 := by
        intro he
        exact hnd.1 (he ▸ List.mem_map.2 ⟨p, hp, rfl⟩)
      simp [alookup, hq, ih hp hnd.2]

theorem mem_of_alookup_eq_some (l : List (String × β)) (k : String) (v : β)
    (h : alookup l k = some v) : (k, v) ∈ l := by
  induction l with
  | nil => simp [alookup] at h
  | cons q l ih =>
    by_cases hq : q.1 = k
    · simp only [alookup, if_pos hq, Option.some.injEq] at h
      exact List.mem_cons.2 (Or.inl (by rw [← hq, ← h]))
    · simp only [alookup, if_neg hq] at h
      exact List.mem_cons_of_mem _ (ih h)

theorem alookup_aremove_self (l : List (String × β)) (k : String) :
    alookup (aremove l k) k = none := by
  rw [alookup_none_iff]
  intro p hp
  have := List.of_mem_filter hp
  simpa using this

theorem alookup_aremove_ne (l : List (String × β)) (k k' : String) (h : k' ≠ k) :
    alookup (aremove l k) k' = alookup l k' := by
  induction l with
  | nil => rfl
  | cons p l ih =>
    by_cases hp : p.1 = k
    · have hne : p.1 ≠ k' := fun he => h (he ▸ hp)
      simp only [aremove, List.filter_cons, hp] at ih ⊢
      simp only [bne_self_eq_false, if_neg (by simp : ¬(false = true)), alookup,
        if_neg hne]
      simpa [aremove] using ih
    · have hb : (p.1 != k) = true := bne_iff_ne.2 hp
      simp only [aremove, List.filter_cons, hb, if_pos rfl, alookup]
      by_cases hp' : p.1 = k'
      · simp [hp']
      · simp only [if_neg hp']
        simpa [aremove] using ih

theorem alookup_append_right (l l' : List (String × β)) (k : String)
    (h : alookup l k = none) : alookup (l ++ l') k = alookup l' k := by
  induction l with
  | nil => simp
  | cons p l ih =>
    by_cases hp : p.1 = k
    · simp [alookup, hp] at h
    · simp only [alookup, if_neg hp] at h
      simpa [alookup, hp] using ih h

theorem alookup_ainsert_self (l : List (String × β)) (k : String) (v : β) :
    alookup (ainsert l k v) k = some v := by
  unfold ainsert
  by_cases h : (alookup l k).isSome
  · rw [if_pos h, alookup_aset_self]
    rcases Option.isSome_iff_exists.1 h with ⟨w, hw⟩
    simp [hw]
  · rw [if_neg h]
    have hn : alookup l k = none := Option.not_isSome_iff_eq_none.1 h
    rw [alookup_append_right _ _ _ hn]
    simp [alookup]

theorem alookup_append_single_ne (l : List (String × β)) (k k' : String) (v : β)
    (h : k' ≠ k) : alookup (l ++ [(k, v)]) k' = alookup l k' := by
  induction l with
  | nil =>
    have : ¬k = k' := fun he => h he.symm
    simp [alookup, this]
  | cons p l ih =>
    by_cases hp : p.1 = k' <;> simp [alookup, hp, ih]

theorem alookup_ainsert_ne (l : List (String × β)) (k k' : String) (v : β)
    (h : k' ≠ k) : alookup (ainsert l k v) k' = alookup l k' := by
  unfold ainsert
  by_cases hs : (alookup l k).isSome
  · rw [if_pos hs, alookup_aset_ne _ _ _ _ h]
  · rw [if_neg hs, alookup_append_single_ne _ _ _ _ h]

theorem mem_ainsert (l : List (String × β)) (k : String) (v : β) (p : String × β)
    (hp : p ∈ ainsert l k v) : p ∈ l ∨ p = (k, v) := by
  unfold ainsert at hp
  by_cases hs : (alookup l k).isSome
  · rw [if_pos hs] at hp
    rcases mem_aset _ _ _ _ hp with ⟨hm, _⟩ | ⟨q, _, hqk, hpe⟩
    · exact Or.inl hm
    · exact Or.inr (by simp [hpe, hqk])
  · rw [if_neg hs] at hp
    rcases List.mem_append.1 hp with hm | hm
    · exact Or.inl hm
    · exact Or.inr (by simpa using hm)

theorem keys_ainsert_nodup (l : List (String × β)) (k : String) (v : β)
    (hnd : (l.map Prod.fst).Nodup) : ((ainsert l k v).map Prod.fst).Nodup := by
  unfold ainsert
  by_cases hs : (alookup l k).isSome
  · rw [if_pos hs, keys_aset]; exact hnd
  · rw [if_neg hs]
    have hn : alookup l k = none := Option.not_isSome_iff_eq_none.1 hs
    rw [alookup_none_iff] at hn
    simp only [List.map_append, List.map_cons, List.map_nil]
    rw [List.nodup_append]
    refine ⟨hnd, List.nodup_singleton _, ?_⟩
    intro a ha hb
    simp at hb
    rcases List.mem_map.1 ha with ⟨q, hq, hqe⟩
    exact hn q hq (hqe.trans hb)

end Assoc

@[simp] theorem lookupTask_mapTask_self (s : TaskScheduler) (tid : String)
    (f : ScheduledTask → ScheduledTask) :
    lookupTask (mapTask s tid f) tid = (lookupTask s tid).map f :=
  alookup_aset_self _ _ _

theorem lookupTask_mapTask_ne (s : TaskScheduler) (tid tid' : String)
    (f : ScheduledTask → ScheduledTask) (h : tid' ≠ tid) :
    lookupTask (mapTask s tid f) tid' = lookupTask s tid' :=
  alookup_aset_ne _ _ _ _ h

@[simp] theorem lookupTask_setState_self (s : TaskScheduler) (tid : String)
    (st : TaskState) :
    lookupTask (setState s tid st) tid =
      (lookupTask s tid).map (fun u => { u with state := st }) := by
  simp [setState]

/-! ## Claim C1: periodic `delay` is not honored (code bug) -/

/-- **C1** (code bug): take the periodic task scheduled with `interval = 1`
and `delay = 5` and started.  `_start_periodic_task` starts the
`LoopingCall` with `now=False`, so its first firing occurs at offset `1` —
strictly before the configured delay of `5` has elapsed — while the
separately registered delayed call is inert: when it fires, no callback
runs (`run_count` stays `0`, only `delayedActive` drops).  This contradicts
the claim (and the scheduler's own comments) that `delay` defers the first
firing. -/
theorem C1_periodic_delay_not_honored :
    (lookupTask (addTask initScheduler "x" "n" (some 1) true 5 none none "" true
        true 0).2
        "x").map (fun t => (t.state, t.delay, periodicFirstFireOffset t, t.delayedActive))
      = some (.RUNNING, 5, 1, true) ∧
    (1 : ℚ) < 5 ∧
    (lookupTask (delayedCallFires
        (addTask initScheduler "x" "n" (some 1) true 5 none none "" true true 0).2
        "x" true 0)
        "x").map (fun t => (t.runCount, t.delayedActive)) = some (0, false) := by
  refine ⟨by decide, by norm_num, by decide⟩

/-! ## Claim C2: one-time firing offset -/

/-- **C2** (counterexample): the one-time task created with `interval = 5`
and `delay = 1` and then started fires at offset `1`, not at
`max(delay, interval, 0) = 5`. -/
theorem C2_onetime_not_max_counterexample :
    (lookupTask (addTask initScheduler "y" "n" (some 5) false 1 none none "" true
        true 0).2
        "y").map (fun t =>
          (onetimeRegisteredDelay t, max (max t.delay (t.interval.getD 0)) 0))
      = some (1, 5) ∧ (1 : ℚ) ≠ 5 := by
  refine ⟨by decide, by norm_num⟩

/-- **C2 (amended)**: consider a one-time task in a reachable pre-start
state (present, neither RUNNING nor COMPLETED, with no tracked or orphaned
registration).  Let `d` be the value the code hands to `reactor.callLater`:
`delay` when `delay > 0`, otherwise `interval` (`0` when absent).  When
`d ≥ 0`, start succeeds and exactly one single-shot timer registration is
live, firing at offset `d` — not at `max(delay, interval, 0)`.  When
`d < 0`, `reactor.callLater` rejects it: start fails, the task is marked
FAILED and no timer is registered. -/
theorem C2_onetime_fire_offset (s : TaskScheduler) (tid : String) (ok : Bool)
    (now : ℕ)
    (hsome : (lookupTask s tid).isSome)
    (hper : (lookupTask s tid).map (fun t => t.periodic) = some false)
    (hrun : (lookupTask s tid).map (fun t => t.state) ≠ some .RUNNING)
    (hcom : (lookupTask s tid).map (fun t => t.state) ≠ some .COMPLETED)
    (hclean : (lookupTask s tid).map (fun t =>
        (t.loopRunning, t.delayedActive, t.orphanLoops, t.orphanDelayed))
      = some (false, false, 0, 0)) :
    ((lookupTask s tid).map (fun t => decide (onetimeRegisteredDelay t < 0))
        = some false →
      (startTask s tid ok now).1 = true ∧
      (lookupTask (startTask s tid ok now).2 tid).map (fun u =>
          (u.state, u.delayedActive, u.loopRunning, underlyingRegistrations u))
        = some (.RUNNING, true, false, 1) ∧
      (lookupTask (startTask s tid ok now).2 tid).map onetimeRegisteredDelay
        = (lookupTask s tid).map
            (fun t => if 0 < t.delay then t.delay else t.interval.getD 0)) ∧
    ((lookupTask s tid).map (fun t => decide (onetimeRegisteredDelay t < 0))
        = some true →
      (startTask s tid ok now).1 = false ∧
      (lookupTask (startTask s tid ok now).2 tid).map (fun u =>
          (u.state, u.delayedActive, underlyingRegistrations u))
        = some (.FAILED, false, 0)) := by
  rcases Option.isSome_iff_exists.1 hsome with ⟨t, hl⟩
  rw [hl] at hper hrun hcom hclean
  have hper2 : t.periodic = false := by simpa using hper
  have hrun2 : t.state ≠ .RUNNING := by simpa using hrun
  have hcom2 : t.state ≠ .COMPLETED := by simpa using hcom
  have hcl := Option.some.inj hclean
  have hlr2 : t.loopRunning = false := congrArg (fun x => x.1) hcl
  have hda2 : t.delayedActive = false := congrArg (fun x => x.2.1) hcl
  have hol2 : t.orphanLoops = 0 := congrArg (fun x => x.2.2.1) hcl
  have hod2 : t.orphanDelayed = 0 := congrArg (fun x => x.2.2.2) hcl
  constructor
  · intro hd
    rw [hl] at hd
    have hdneg : ¬ onetimeRegisteredDelay t < 0 := by simpa using hd
    have h1 : startTask s tid ok now =
        (true, setState (mapTask s tid assignFreshDelayed) tid .RUNNING) := by
      simp [startTask, hl, hper2, hrun2, hcom2, hdneg]
    have h2 : lookupTask (startTask s tid ok now).2 tid = some
        { t with delayedActive := true,
                 orphanDelayed := t.orphanDelayed +
                   (if t.delayedActive then 1 else 0),
                 state := .RUNNING } := by
      rw [h1]
      simp [hl, assignFreshDelayed]
    refine ⟨by rw [h1], ?_, ?_⟩
    · simp [h2, underlyingRegistrations, hlr2, hda2, hol2, hod2]
    · rw [h2, hl]
      simp [onetimeRegisteredDelay]
  · intro hd
    rw [hl] at hd
    have hdneg : onetimeRegisteredDelay t < 0 := by simpa using hd
    have h1 : startTask s tid ok now = (false, setState s tid .FAILED) := by
      simp [startTask, hl, hper2, hrun2, hcom2, hdneg]
    have h2 : lookupTask (startTask s tid ok now).2 tid = some
        { t with state := .FAILED } := by
      rw [h1]
      simp [hl]
    refine ⟨by rw [h1], ?_⟩
    simp [h2, underlyingRegistrations, hlr2, hda2, hol2, hod2]

/-! ## Claim C3: one active registration per RUNNING task (code bug) -/

/-- **C3** (code bug): the "exactly one underlying timer registration while
RUNNING" invariant fails in the code, in several ways, all at concrete
reachable inputs:

* starting a periodic task with `delay = 1` leaves it RUNNING with **two**
  live registrations — the repeating `LoopingCall` plus the still-pending
  inert delayed call;
* after that task's callback raises (state FAILED, loop still running),
  starting it again overwrites `_looping_call` and `_delayed_call`,
  orphaning both still-live registrations while creating two more: the
  RUNNING task now has **four** live registrations;
* a periodic task with `delay = 0` and `max_runs = 2` that is started
  (its first firing happens synchronously, while still PENDING), paused,
  and started again reaches `max_runs` during the second synchronous
  firing: the stop succeeds from PAUSED, and `start_task` then overwrites
  the state with RUNNING — a RUNNING task with **zero** live
  registrations. -/
theorem C3_registration_invariant_violated :
    (lookupTask (addTask initScheduler "z" "n" (some 1) true 1 none none "" true
        true 0).2 "z").map (fun t => (t.state, underlyingRegistrations t))
      = some (.RUNNING, 2) ∧
    (lookupTask (startTask (loopingCallFires
        (addTask initScheduler "z" "n" (some 1) true 1 none none "" true true 0).2
        "z" false 0) "z" true 0).2 "z").map
        (fun t => (t.state, underlyingRegistrations t)) = some (.RUNNING, 4) ∧
    (lookupTask (startTask (pauseTask
        (addTask initScheduler "w" "n" (some 1) true 0 (some 2) none "" true
          true 0).2 "w").2 "w" true 1).2 "w").map
        (fun t => (t.state, underlyingRegistrations t)) = some (.RUNNING, 0) ∧
    ((2 : ℕ) ≠ 1 ∧ (4 : ℕ) ≠ 1 ∧ (0 : ℕ) ≠ 1) := by
  refine ⟨by decide, by decide, by decide, by norm_num⟩

/-! ## Claim C5: one-time failure ends COMPLETED, not FAILED -/

/-- **C5** (counterexample): a one-time task whose callback raises at its
firing ends in state COMPLETED, not FAILED — `_start_onetime_task`'s
wrapper unconditionally overwrites the FAILED state set by
`_execute_task`. -/
theorem C5_onetime_failure_completed_counterexample :
    (lookupTask (delayedCallFires
        (addTask initScheduler "w" "n" none false 0 none none "" true true 0).2
        "w" false 0)
        "w").map (fun t => t.state) = some .COMPLETED ∧
    TaskState.COMPLETED ≠ TaskState.FAILED := by
  refine ⟨by decide, by decide⟩

/-! ## Claim C8: a second stop fails explicitly -/

/-- **C8**: when a task is RUNNING or PAUSED, `stop_task` succeeds and
leaves it STOPPED; an immediately repeated `stop_task` returns failure
(state no longer in {RUNNING, PAUSED}) and changes nothing. -/
theorem C8_double_stop (s : TaskScheduler) (tid : String)
    (hst : (lookupTask s tid).map (fun t => t.state) = some .RUNNING ∨
           (lookupTask s tid).map (fun t => t.state) = some .PAUSED) :
    (stopTask s tid).1 = true ∧
    (lookupTask (stopTask s tid).2 tid).map (fun t => t.state) = some .STOPPED ∧
    (stopTask (stopTask s tid).2 tid).1 = false ∧
    (stopTask (stopTask s tid).2 tid).2 = (stopTask s tid).2 := by
  have hsome : (lookupTask s tid).isSome := by
    rcases hst with h | h <;>
      (cases hl : lookupTask s tid <;> simp [hl] at h ⊢)
  rcases Option.isSome_iff_exists.1 hsome with ⟨t, hl⟩
  rw [hl] at hst
  have hok : t.state = .RUNNING ∨ t.state = .PAUSED := by
    rcases hst with h | h
    · exact Or.inl (by simpa using h)
    · exact Or.inr (by simpa using h)
  set s1 : TaskScheduler := mapTask s tid (fun u =>
      { u with loopRunning := false, delayedActive := false, state := .STOPPED })
    with hs1
  have h1 : stopTask s tid = (true, s1) := by
    simp [stopTask, hl, hok, hs1]
  have h2 : lookupTask s1 tid =
      some { t with loopRunning := false, delayedActive := false, state := .STOPPED } := by
    rw [hs1]
    simp [hl]
  have h3 : stopTask s1 tid = (false, s1) := by
    simp [stopTask, h2]
  rw [h1]
  exact ⟨rfl, by simp [h2], by simp [h3], by simp [h3]⟩

/-! ## Claim C6: schedule validation and interval defaulting -/

/-- **C6**: a schedule request with `periodic = true` and no interval fails
(returns no id) and leaves the task table untouched; a non-periodic request
with no interval succeeds, returning the fresh id, and the created task's
interval equals its delay. -/
theorem C6_schedule_validation (s : TaskScheduler) (freshId name : String)
    (delay : ℚ) (maxRuns : Option ℕ) (pluginName : Option String)
    (description : String) (autoStart ok : Bool) (now : ℕ) :
    addTask s freshId name none true delay maxRuns pluginName description
      autoStart ok now = (none, s) ∧
    (addTask s freshId name none false delay maxRuns pluginName description
        autoStart ok now).1 = some freshId ∧
    (lookupTask (addTask s freshId name none false delay maxRuns pluginName
        description autoStart ok now).2 freshId).map (fun t => (t.interval, t.delay))
      = some (some delay, delay) := by
  have hT : alookup (ainsert s.tasks freshId
      { id := freshId, name := name, interval := some delay, state := .PENDING,
        periodic := false, lastRun := none, runCount := 0, maxRuns := maxRuns,
        delay := delay, pluginName := pluginName, description := description,
        hasLoop := false, loopRunning := false, delayedActive := false,
        orphanLoops := 0, orphanDelayed := 0 }) freshId
      = some
      { id := freshId, name := name, interval := some delay, state := .PENDING,
        periodic := false, lastRun := none, runCount := 0, maxRuns := maxRuns,
        delay := delay, pluginName := pluginName, description := description,
        hasLoop := false, loopRunning := false, delayedActive := false,
        orphanLoops := 0, orphanDelayed := 0 } :=
    alookup_ainsert_self _ _ _
  refine ⟨by simp [addTask], ?_, ?_⟩
  · cases autoStart <;> simp [addTask]
  · cases autoStart with
    | false => simp [addTask, lookupTask, hT]
    | true =>
      by_cases hneg : delay < 0
      · simp [addTask, startTask, lookupTask, hT, onetimeRegisteredDelay, hneg,
          setState, mapTask, alookup_aset_self, aset_aset]
      · simp [addTask, startTask, lookupTask, hT, onetimeRegisteredDelay, hneg,
          assignFreshDelayed, setState, mapTask, alookup_aset_self, aset_aset]

/-! ## Claim C9: dispatcher behaviour on tokenization failure -/

/-- **C9**: whenever tokenization of the (trigger-stripped) message fails,
no command handler is invoked; if the failure is the unterminated-quotation
error, the dispatcher replies with the specific "Missing closing quotation
mark" notice, and on any other tokenization failure it sends no reply at
all. -/
theorem C9_parse_error_handling (trigger : String) (isPm : Bool) (message : String)
    (commands : List (String × ℕ)) (e : ShlexError)
    (h : shlexSplit (if isPm then message else message.drop trigger.length)
      = .error e) :
    handleCommand trigger isPm message commands =
      (if e = .noClosingQuotation then
        [DispatchAction.reply "Missing closing quotation mark"] else []) ∧
    ∀ c a, DispatchAction.dispatch c a ∉ handleCommand trigger isPm message commands := by
  have h1 : handleCommand trigger isPm message commands =
      (if mentionsClosingQuotation e then
        [DispatchAction.reply "Missing closing quotation mark"] else []) := by
    simp only [handleCommand, h]
  constructor
  · rw [h1]
    cases e
    · simp [show mentionsClosingQuotation .noClosingQuotation = true from by decide]
    · simp [show mentionsClosingQuotation .noEscapedCharacter = false from by decide]
  · intro c a
    rw [h1]
    by_cases hm : mentionsClosingQuotation e <;> simp [hm]

/-- Witness for C9 at the spec's own example input. -/
theorem C9_parse_error_handling_witness :
    handleCommand "!" true "echo 'unterminated" []
      = [DispatchAction.reply "Missing closing quotation mark"] := by
  have h := C9_parse_error_handling "!" true "echo 'unterminated" []
    .noClosingQuotation (by rfl)
  simpa using h.1

/-! ## Claim C10: unload unregisters by name alone -/

section FoldLemmas

variable {β γ : Type}

theorem alookup_foldl_aremove_of_none (l : List (String × γ)) (m : List (String × β))
    (n : String) (h : alookup m n = none) :
    alookup (l.foldl (fun acc kv => aremove acc kv.1) m) n = none := by
  induction l generalizing m with
  | nil => exact h
  | cons kv l ih =>
    rw [List.foldl_cons]
    apply ih
    by_cases hk : n = kv.1
    · rw [hk]
      exact alookup_aremove_self _ _
    · rw [alookup_aremove_ne _ _ _ hk]
      exact h

theorem alookup_foldl_aremove_mem (l : List (String × γ)) (m : List (String × β))
    (n : String) (hn : n ∈ l.map Prod.fst) :
    alookup (l.foldl (fun acc kv => aremove acc kv.1) m) n = none := by
  induction l generalizing m with
  | nil => simp at hn
  | cons kv l ih =>
    rw [List.foldl_cons]
    by_cases hk : n = kv.1
    · apply alookup_foldl_aremove_of_none
      rw [hk]
      exact alookup_aremove_self _ _
    · have hn' : n ∈ l.map Prod.fst := by
        rcases List.mem_map.1 hn with ⟨q, hq, hqe⟩
        rcases List.mem_cons.1 hq with h1 | h1
        · exact absurd (by rw [← hqe, h1]) hk
        · exact List.mem_map.2 ⟨q, h1, hqe⟩
      exact ih _ hn'

theorem alookup_foldl_ainsert_not_mem (l : List (String × β))
    (m : List (String × β)) (n : String) (hn : n ∉ l.map Prod.fst) :
    alookup (l.foldl (fun acc kv => ainsert acc kv.1 kv.2) m) n = alookup m n := by
  induction l generalizing m with
  | nil => rfl
  | cons kv l ih =>
    have hk : n ≠ kv.1 := fun he => hn (by simp [he])
    have hn' : n ∉ l.map Prod.fst := fun hm => hn (by simp [hm])
    rw [List.foldl_cons, ih _ hn', alookup_ainsert_ne _ _ _ _ hk]

theorem alookup_foldl_ainsert_mem (l : List (String × β)) (m : List (String × β))
    (n : String) (v : β) (hmem : (n, v) ∈ l) (hnd : (l.map Prod.fst).Nodup) :
    alookup (l.foldl (fun acc kv => ainsert acc kv.1 kv.2) m) n = some v := by
  induction l generalizing m with
  | nil => cases hmem
  | cons kv l ih =>
    simp only [List.map_cons, List.nodup_cons] at hnd
    rcases List.mem_cons.1 hmem with h1 | h1
    · rw [List.foldl_cons, ← h1]
      rw [alookup_foldl_ainsert_not_mem _ _ _ (by simpa [← h1] using hnd.1)]
      exact alookup_ainsert_self _ _ _
    · rw [List.foldl_cons]
      exact ih _ h1 hnd.2

end FoldLemmas

/-- **C10**: unregistration on unload is keyed by name alone.  Load plugin
`A` (exporting command `n`), then plugin `B` (exporting `n` with handler
`hb`, which overwrites `A`'s entry); unloading `A` removes `n` from the
command map entirely, so `B` stays loaded but its handler for `n` is no
longer dispatchable. -/
theorem C10_unload_removes_by_name (pm pm1 pm2 pm3 : PluginManager)
    (r1 r2 r3 : Bool) (sch : Option TaskScheduler)
    (nA nB n : String) (hb : ℕ) (A B : Plugin)
    (hA : alookup pm.loadedPlugins nA = none)
    (hB : alookup pm.loadedPlugins nB = none)
    (hne : nA ≠ nB)
    (hAn : n ∈ A.commandAttrs.map Prod.fst)
    (hBn : (n, hb) ∈ B.commandAttrs)
    (hBnd : (B.commandAttrs.map Prod.fst).Nodup)
    (h1 : loadPlugin pm nA A = (r1, pm1))
    (h2 : loadPlugin pm1 nB B = (r2, pm2))
    (h3 : unloadPlugin pm2 nA none = (r3, pm3, sch)) :
    r1 = true ∧ r2 = true ∧
    alookup pm2.commands n = some hb ∧
    r3 = true ∧
    alookup pm3.commands n = none ∧
    executeCommand pm3 n = false ∧
    (alookup pm3.loadedPlugins nB).isSome := by
  have hr1 : r1 = (loadPlugin pm nA A).1 := by rw [h1]
  have hpm1 : pm1 = (loadPlugin pm nA A).2 := by rw [h1]
  have hv1 : r1 = true := by
    rw [hr1]
    simp [loadPlugin, hA]
  have hpm1L : pm1.loadedPlugins = ainsert pm.loadedPlugins nA A := by
    rw [hpm1]
    simp [loadPlugin, hA, registerPluginFeatures]
  have hB1 : alookup pm1.loadedPlugins nB = none := by
    rw [hpm1L, alookup_ainsert_ne _ _ _ _ (Ne.symm hne)]
    exact hB
  have hr2 : r2 = (loadPlugin pm1 nB B).1 := by rw [h2]
  have hpm2 : pm2 = (loadPlugin pm1 nB B).2 := by rw [h2]
  have hv2 : r2 = true := by
    rw [hr2]
    simp [loadPlugin, hB1]
  have hpm2L : pm2.loadedPlugins = ainsert pm1.loadedPlugins nB B := by
    rw [hpm2]
    simp [loadPlugin, hB1, registerPluginFeatures]
  have hpm2C : pm2.commands =
      B.commandAttrs.foldl (fun acc kv => ainsert acc kv.1 kv.2) pm1.commands := by
    rw [hpm2]
    simp [loadPlugin, hB1, registerPluginFeatures]
  have hA2 : alookup pm2.loadedPlugins nA = some A := by
    rw [hpm2L, alookup_ainsert_ne _ _ _ _ hne, hpm1L]
    exact alookup_ainsert_self _ _ _
  have hr3 : r3 = (unloadPlugin pm2 nA none).1 := by rw [h3]
  have hpm3 : pm3 = (unloadPlugin pm2 nA none).2.1 := by rw [h3]
  have hv3 : r3 = true := by
    rw [hr3]
    simp [unloadPlugin, hA2]
  have hpm3C : pm3.commands =
      A.commandAttrs.foldl (fun acc kv => aremove acc kv.1) pm2.commands := by
    rw [hpm3]
    simp [unloadPlugin, hA2, unregisterPluginFeatures]
  have hpm3L : pm3.loadedPlugins = aremove pm2.loadedPlugins nA := by
    rw [hpm3]
    simp [unloadPlugin, hA2, unregisterPluginFeatures]
  have hnone : alookup pm3.commands n = none := by
    rw [hpm3C]
    exact alookup_foldl_aremove_mem _ _ _ hAn
  refine ⟨hv1, hv2, ?_, hv3, hnone, ?_, ?_⟩
  · rw [hpm2C]
    exact alookup_foldl_ainsert_mem _ _ _ _ hBn hBnd
  · simp [executeCommand, hnone]
  · rw [hpm3L, alookup_aremove_ne _ _ _ (Ne.symm hne), hpm2L,
      alookup_ainsert_self]
    rfl

/-- Witness for C10 on two tiny concrete plugins sharing command `greet`. -/
theorem C10_unload_removes_by_name_witness :
    (loadPlugin initPluginManager "a" ⟨[("greet", 0)], []⟩).1 = true ∧
    (loadPlugin (loadPlugin initPluginManager "a" ⟨[("greet", 0)], []⟩).2 "b"
      ⟨[("greet", 1)], []⟩).1 = true ∧
    alookup (loadPlugin (loadPlugin initPluginManager "a" ⟨[("greet", 0)], []⟩).2 "b"
      ⟨[("greet", 1)], []⟩).2.commands "greet" = some 1 ∧
    (unloadPlugin (loadPlugin (loadPlugin initPluginManager "a"
      ⟨[("greet", 0)], []⟩).2 "b" ⟨[("greet", 1)], []⟩).2 "a" none).1 = true ∧
    alookup (unloadPlugin (loadPlugin (loadPlugin initPluginManager "a"
      ⟨[("greet", 0)], []⟩).2 "b" ⟨[("greet", 1)], []⟩).2 "a"
      none).2.1.commands "greet" = none ∧
    executeCommand (unloadPlugin (loadPlugin (loadPlugin initPluginManager "a"
      ⟨[("greet", 0)], []⟩).2 "b" ⟨[("greet", 1)], []⟩).2 "a" none).2.1 "greet"
      = false ∧
    (alookup (unloadPlugin (loadPlugin (loadPlugin initPluginManager "a"
      ⟨[("greet", 0)], []⟩).2 "b" ⟨[("greet", 1)], []⟩).2 "a"
      none).2.1.loadedPlugins "b").isSome :=
  C10_unload_removes_by_name initPluginManager _ _ _ _ _ _ _ "a" "b" "greet" 1
    ⟨[("greet", 0)], []⟩ ⟨[("greet", 1)], []⟩ (by decide) (by decide) (by decide)
    (by decide) (by decide) (by decide) rfl rfl rfl

/-- Witness for C2 (amended) on a concrete PENDING one-time task with
`interval = 5`, `delay = 1` (so the registered delay is `1 ≥ 0`). -/
theorem C2_onetime_fire_offset_witness :
    (startTask (addTask initScheduler "y2" "n" (some 5) false 1 none none ""
      false true 0).2 "y2" true 0).1 = true ∧
    (lookupTask (startTask (addTask initScheduler "y2" "n" (some 5) false 1 none
      none "" false true 0).2 "y2" true 0).2 "y2").map (fun u =>
        (u.state, u.delayedActive, u.loopRunning, underlyingRegistrations u))
      = some (.RUNNING, true, false, 1) ∧
    (lookupTask (startTask (addTask initScheduler "y2" "n" (some 5) false 1 none
      none "" false true 0).2 "y2" true 0).2 "y2").map onetimeRegisteredDelay
      = (lookupTask (addTask initScheduler "y2" "n" (some 5) false 1 none none ""
          false true 0).2 "y2").map
          (fun t => if 0 < t.delay then t.delay else t.interval.getD 0) :=
  (C2_onetime_fire_offset _ "y2" true 0 (by decide) (by decide) (by decide)
    (by decide) (by decide)).1 (by decide)

/-- Witness for C8 on a concrete RUNNING periodic task. -/
theorem C8_double_stop_witness :
    (stopTask (addTask initScheduler "t8" "n" (some 1) true 0 none none ""
      true true 0).2 "t8").1 = true ∧
    (lookupTask (stopTask (addTask initScheduler "t8" "n" (some 1) true 0 none
      none "" true true 0).2 "t8").2 "t8").map (fun t => t.state)
      = some .STOPPED ∧
    (stopTask (stopTask (addTask initScheduler "t8" "n" (some 1) true 0 none none
      "" true true 0).2 "t8").2 "t8").1 = false ∧
    (stopTask (stopTask (addTask initScheduler "t8" "n" (some 1) true 0 none none
      "" true true 0).2 "t8").2 "t8").2
      = (stopTask (addTask initScheduler "t8" "n" (some 1) true 0 none none ""
          true true 0).2 "t8").2 :=
  C8_double_stop _ "t8" (Or.inl (by decide))

/-! ## Claim C7: `remove_plugin_tasks` removes exactly the owner's tasks -/

section RemoveLemmas

variable {β : Type}

theorem aremove_aset (l : List (String × β)) (k : String) (f : β → β) :
    aremove (aset l k f) k = aremove l k := by
  induction l with
  | nil => rfl
  | cons p l ih =>
    by_cases h : p.1 = k
    · have hb : (p.1 != k) = false := by simp [h]
      simp only [aset, List.map_cons, if_pos h, aremove, List.filter_cons, hb]
      simpa [aremove, aset] using ih
    · have hb : (p.1 != k) = true := bne_iff_ne.2 h
      simp only [aset, List.map_cons, if_neg h, aremove, List.filter_cons, hb]
      simpa [aremove, aset] using ih

end RemoveLemmas

/-- The surviving table after `remove_task` is exactly the old table without
the entries keyed `tid` — whether or not the task existed or was stopped
first. -/
theorem removeTask_tasks (s : TaskScheduler) (tid : String) :
    (removeTask s tid).2.tasks = s.tasks.filter (fun p => p.1 != tid) := by
  cases hl : lookupTask s tid with
  | none =>
    have hall := (alookup_none_iff s.tasks tid).1 hl
    simp only [removeTask, hl]
    exact (List.filter_eq_self.2 (fun p hp => bne_iff_ne.2 (hall p hp))).symm
  | some t =>
    by_cases hg : t.state = .RUNNING ∨ t.state = .PAUSED
    · simp only [removeTask, hl, stopTask, if_pos hg, mapTask]
      exact aremove_aset _ _ _
    · simp only [removeTask, hl, stopTask, if_neg hg]
      rfl

theorem foldl_removeTask_tasks (ids : List String) (s : TaskScheduler) :
    (ids.foldl (fun acc tid => (removeTask acc tid).2) s).tasks
      = s.tasks.filter (fun p => !(ids.contains p.1)) := by
  induction ids generalizing s with
  | nil => simp
  | cons i ids ih =>
    rw [List.foldl_cons, ih, removeTask_tasks, List.filter_filter]
    apply List.filter_congr
    intro p _
    by_cases hpi : p.1 = i
    · simp [hpi]
    · simp [hpi, bne_iff_ne.2 hpi]

/-- **C7**: `remove_plugin_tasks(owner)` removes exactly the tasks whose
`plugin_name` equals `owner` and returns their number; every other task —
including every unowned task (`plugin_name = None`) — survives unchanged,
in order. -/
theorem C7_remove_plugin_tasks_exact (s : TaskScheduler) (owner : String)
    (hnd : (s.tasks.map Prod.fst).Nodup) :
    (removePluginTasks s owner).1
      = (s.tasks.filter (fun p => p.2.pluginName == some owner)).length ∧
    (removePluginTasks s owner).2.tasks
      = s.tasks.filter (fun p => !(p.2.pluginName == some owner)) := by
  constructor
  · simp [removePluginTasks]
  · show (((s.tasks.filter (fun p => p.2.pluginName == some owner)).map
        Prod.fst).foldl (fun acc tid => (removeTask acc tid).2) s).tasks = _
    rw [foldl_removeTask_tasks]
    apply List.filter_congr
    intro p hp
    congr 1
    by_cases hm : p.2.pluginName = some owner
    · have hmem : p.1 ∈ (s.tasks.filter
          (fun q => q.2.pluginName == some owner)).map Prod.fst :=
        List.mem_map.2 ⟨p, List.mem_filter.2 ⟨hp, by simp [hm]⟩, rfl⟩
      simp [hm, List.contains, List.elem_eq_mem, hmem]
    · have hnot : p.1 ∉ (s.tasks.filter
          (fun q => q.2.pluginName == some owner)).map Prod.fst := by
        intro hmem
        rcases List.mem_map.1 hmem with ⟨q, hq, hqe⟩
        have hqf := List.mem_filter.1 hq
        have hq1 : alookup s.tasks q.1 = some q.2 :=
          alookup_eq_of_mem_nodup _ _ hqf.1 hnd
        have hp1 : alookup s.tasks p.1 = some p.2 :=
          alookup_eq_of_mem_nodup _ _ hp hnd
        rw [hqe, hp1] at hq1
        have hq2 : q.2 = p.2 := (Option.some.inj hq1).symm
        exact hm (by simpa [hq2] using hqf.2)
      simp [hm, List.contains, List.elem_eq_mem, hnot]

/-- Witness for C7 on a table holding one task for `plug`, one for another
owner and one unowned task. -/
theorem C7_remove_plugin_tasks_exact_witness :
    (removePluginTasks (addTask (addTask (addTask initScheduler "a" "n1" (some 1)
      true 0 none (some "plug") "" false true 0).2 "b" "n2" (some 1) true 0 none
      (some "other") "" false true 0).2 "c" "n3" (some 1) true 0 none none ""
      false true 0).2 "plug").1
      = ((addTask (addTask (addTask initScheduler "a" "n1" (some 1) true 0 none
        (some "plug") "" false true 0).2 "b" "n2" (some 1) true 0 none (some "other") ""
        false true 0).2 "c" "n3" (some 1) true 0 none none "" false true 0).2.tasks.filter
        (fun p => p.2.pluginName == some "plug")).length ∧
    (removePluginTasks (addTask (addTask (addTask initScheduler "a" "n1" (some 1)
      true 0 none (some "plug") "" false true 0).2 "b" "n2" (some 1) true 0 none
      (some "other") "" false true 0).2 "c" "n3" (some 1) true 0 none none ""
      false true 0).2 "plug").2.tasks
      = (addTask (addTask (addTask initScheduler "a" "n1" (some 1) true 0 none
        (some "plug") "" false true 0).2 "b" "n2" (some 1) true 0 none (some "other") ""
        false true 0).2 "c" "n3" (some 1) true 0 none none "" false true 0).2.tasks.filter
        (fun p => !(p.2.pluginName == some "plug")) :=
  C7_remove_plugin_tasks_exact _ "plug" (by decide)

/-! ## Claim C5: a raising callback is contained -/

/-- **C5 (amended)**: a firing whose callback raises never propagates the
exception (the firing functions are total); it leaves `run_count` and
`last_run` untouched in every case.  For a firing of the repeating timer
the task is left FAILED with the loop still running (future firings
continue) and the delayed call untouched; for a one-time task's single
firing the FAILED state is immediately overwritten with COMPLETED by the
one-time wrapper, so the task ends COMPLETED, not FAILED. -/
theorem C5_callback_failure (s : TaskScheduler) (tid : String) (now : ℕ) :
    ((lookupTask s tid).map (fun t => t.loopRunning) = some true →
      (lookupTask (loopingCallFires s tid false now) tid).map
          (fun t => (t.state, t.runCount, t.lastRun, t.loopRunning, t.delayedActive))
        = (lookupTask s tid).map
          (fun t => (.FAILED, t.runCount, t.lastRun, t.loopRunning, t.delayedActive))) ∧
    ((lookupTask s tid).map (fun t => (t.delayedActive, t.periodic))
        = some (true, false) →
      (lookupTask (delayedCallFires s tid false now) tid).map
          (fun t => (t.state, t.runCount, t.lastRun, t.delayedActive))
        = (lookupTask s tid).map
          (fun t => (.COMPLETED, t.runCount, t.lastRun, false))) := by
  constructor
  · intro h
    cases hl : lookupTask s tid with
    | none => rw [hl] at h; simp at h
    | some t =>
      rw [hl] at h
      have hlr : t.loopRunning = true := by simpa using h
      simp [loopingCallFires, hl, hlr, executeTask]
  · intro h
    cases hl : lookupTask s tid with
    | none => rw [hl] at h; simp at h
    | some t =>
      rw [hl] at h
      have hda : t.delayedActive = true := by
        have := Option.some.inj h
        simpa using congrArg Prod.fst this
      have hper : t.periodic = false := by
        have := Option.some.inj h
        simpa using congrArg Prod.snd this
      simp [delayedCallFires, hl, hda, hper, executeTask]

/-- Witness for C5 (amended) on a scheduler holding a RUNNING periodic task
`p1` and a RUNNING one-time task `o1`. -/
theorem C5_callback_failure_witness :
    ((lookupTask (loopingCallFires (addTask (addTask initScheduler "p1" "np"
        (some 1) true 0 none none "" true true 0).2 "o1" "no" (some 1) false 0 none none
        "" true true 0).2 "p1" false 0) "p1").map
        (fun t => (t.state, t.runCount, t.lastRun, t.loopRunning, t.delayedActive))
      = (lookupTask (addTask (addTask initScheduler "p1" "np" (some 1) true 0 none
          none "" true true 0).2 "o1" "no" (some 1) false 0 none none "" true true 0).2
          "p1").map
          (fun t => (.FAILED, t.runCount, t.lastRun, t.loopRunning, t.delayedActive))) ∧
    ((lookupTask (delayedCallFires (addTask (addTask initScheduler "p1" "np"
        (some 1) true 0 none none "" true true 0).2 "o1" "no" (some 1) false 0 none none
        "" true true 0).2 "o1" false 0) "o1").map
        (fun t => (t.state, t.runCount, t.lastRun, t.delayedActive))
      = (lookupTask (addTask (addTask initScheduler "p1" "np" (some 1) true 0 none
          none "" true true 0).2 "o1" "no" (some 1) false 0 none none "" true true 0).2
          "o1").map
          (fun t => (.COMPLETED, t.runCount, t.lastRun, false))) :=
  ⟨(C5_callback_failure _ "p1" 0).1 (by decide),
   (C5_callback_failure _ "o1" 0).2 (by decide)⟩

/-! ## Claim C4: `max_runs` completion -/

end Dunamis

